import Mathlib

/-!
Verification of the Keycloak group-resource client (Go package `keycloak`).

The Go sources are shallowly embedded: Go pointer fields become `Option`,
Go maps become association lists, the HTTP transport becomes an explicit
oracle `Net : Request → Response`, and every operation returns its result
together with the list of requests it issued (so that "no network call"
and "number of page fetches" are provable statements).  Transport-level
failures (the `err != nil` leg of each resty call) are outside the model:
the oracle always produces a decoded `Response`.
-/

namespace Keycloak

/-! ## Data model (`group_model.go`, `user_model.go`) -/

/-- Embedding of the `Group` struct.  Pointer-typed Go fields become
`Option`; `Attributes` (`*map[string][]string`) becomes an optional
association list; `SubGroups` (`*[]*Group`) becomes an optional list of
optional groups, keeping Go's possible `nil` entries.  Fields not read by
any verified operation (`description`, `path`, `parentId`,
`subGroupCount`, `access`, roles) are omitted. -/
inductive Group : Type where
  | mk : Option String → Option String →
      Option (List (String × List String)) →
      Option (List (Option Group)) → Group

/-- The `ID` field of a `Group`. -/
def Group.id : Group → Option String
  | .mk i _ _ _ => i

/-- The `Name` field of a `Group`. -/
def Group.name : Group → Option String
  | .mk _ n _ _ => n

/-- The `Attributes` field of a `Group`. -/
def Group.attributes : Group → Option (List (String × List String))
  | .mk _ _ a _ => a

/-- The `SubGroups` field of a `Group`. -/
def Group.subGroups : Group → Option (List (Option Group))
  | .mk _ _ _ s => s

/-- Embedding of `GroupAttribute`: the key/value search probe. -/
structure GroupAttribute where
  key : String
  value : String
deriving DecidableEq, Repr

/-- Minimal embedding of the `User` struct (only returned opaquely by
`ListMembers`; no claim inspects its fields). -/
structure User where
  id : Option String := none
  username : Option String := none
deriving DecidableEq, Repr

/-- Embedding of `ManagementPermissionReference`. -/
structure ManagementPermissionReference where
  enabled : Option Bool := none
  resource : Option String := none
  scopePermissions : Option (List (String × String)) := none
deriving DecidableEq, Repr

/-! ## Errors (`group.go`, `error.go`) -/

/-- Domain errors of the groups client.  `groupNotFound` embeds the single
shared sentinel `ErrGroupNotFound` (one Go package-level `errors.New`
value, so one Lean constructor); `validation` embeds the local
argument-validation errors produced before any request; `remote` embeds
the wrapped non-2xx errors. -/
inductive KeycloakError where
  | groupNotFound
  | validation (msg : String)
  | remote (msg : String)
deriving DecidableEq, Repr

/-- Embedding of `HTTPErrorResponse` (`error.go`): the three optional body
fields of a failure response, absent encoded as `""` (Go zero value). -/
structure HTTPErrorResponse where
  error : String := ""
  message : String := ""
  description : String := ""
deriving DecidableEq, Repr

/-- Embedding of `HTTPErrorResponse.Empty` exactly as written in
`error.go`: `len(e.Error) <= 0 || len(e.Message) <= 0 ||
len(e.Description) <= 0` (note the disjunctions in the source). -/
def HTTPErrorResponse.Empty (e : HTTPErrorResponse) : Bool :=
  e.error.length ≤ 0 || e.message.length ≤ 0 || e.description.length ≤ 0

/-! ## The attribute scan (`findGroupByAttribute`, `group.go`) -/

/-- Embedding of `findGroupByAttribute` (`group.go`).  Linear scan over a
slice of `*Group`: a `nil` entry or an entry with `nil` attributes is
skipped; when the searched key is present, a value list of length ≠ 1
makes the function return `(nil, false)` immediately (this is an early
`return` in the source, not a `continue`); a single-element list equal to
the searched value returns the group; a single-element list with another
value lets the scan continue.  The Go result pair `(*Group, bool)` is
rendered as `Option Group`. -/
def findGroupByAttribute : List (Option Group) → GroupAttribute → Option Group
  | [], _ => none
  | none :: rest, attr => findGroupByAttribute rest attr
  | some group :: rest, attr =>
    match group.attributes with
    | none => findGroupByAttribute rest attr
    | some groupAttributes =>
      match groupAttributes.lookup attr.key with
      | none => findGroupByAttribute rest attr
      | some value =>
        if value.length ≠ 1 then none
        else if value.headD "" = attr.value then some group
        else findGroupByAttribute rest attr

/-! ## URL building (`endpoint.go`, `util.go`) -/

/-- Embedding of the `endpoint` struct: HTTP method plus path template
with curly-brace placeholders. -/
structure Endpoint where
  method : String
  path : String
deriving DecidableEq, Repr

def endpointGroupsList : Endpoint := ⟨"GET", "/admin/realms/{realm}/groups"⟩
def endpointGroupsCreate : Endpoint := ⟨"POST", "/admin/realms/{realm}/groups"⟩
def endpointGroupsCount : Endpoint := ⟨"GET", "/admin/realms/{realm}/groups/count"⟩
def endpointGroupGet : Endpoint := ⟨"GET", "/admin/realms/{realm}/groups/{groupID}"⟩
def endpointGroupUpdate : Endpoint := ⟨"PUT", "/admin/realms/{realm}/groups/{groupID}"⟩
def endpointGroupDelete : Endpoint := ⟨"DELETE", "/admin/realms/{realm}/groups/{groupID}"⟩
def endpointGroupChildren : Endpoint := ⟨"GET", "/admin/realms/{realm}/groups/{groupID}/children"⟩
def endpointGroupChildCreate : Endpoint := ⟨"POST", "/admin/realms/{realm}/groups/{groupID}/children"⟩
def endpointGroupMembers : Endpoint := ⟨"GET", "/admin/realms/{realm}/groups/{groupID}/members"⟩
def endpointGroupPermsGet : Endpoint := ⟨"GET", "/admin/realms/{realm}/groups/{groupID}/management/permissions"⟩
def endpointGroupPermsUpdate : Endpoint := ⟨"PUT", "/admin/realms/{realm}/groups/{groupID}/management/permissions"⟩

/-- Embedding of Go's `strings.ReplaceAll` on character lists: at each
position, if the pattern is a (non-empty) prefix, emit the replacement
and skip the pattern, otherwise emit one character and continue.  The
templates never use an empty pattern, which is treated as a no-op here. -/
def replaceAllChars (pat rep : List Char) : List Char → List Char
  | [] => []
  | c :: rest =>
    if pat ≠ [] ∧ pat.isPrefixOf (c :: rest) then
      rep ++ replaceAllChars pat rep (rest.drop (pat.length - 1))
    else
      c :: replaceAllChars pat rep rest
termination_by l => l.length
decreasing_by
  · simp only [List.length_drop, List.length_cons]
    omega
  · simp only [List.length_cons]
    omega

/-- Whether the pattern occurs somewhere in the string (used to state
that a replacement pass is a no-op). -/
def containsPat (pat : List Char) : List Char → Bool
  | [] => false
  | c :: rest => pat.isPrefixOf (c :: rest) || containsPat pat rest

/-- Lifting of `strings.ReplaceAll` to `String`. -/
def replaceAll (s pat rep : String) : String :=
  String.mk (replaceAllChars pat.toList rep.toList s.toList)

/-- The immutable configuration of the `Client` struct that the group
operations read: base URL, realm, and the page size set at construction
(default `defaultSize`, overridable with `WithPageSize`, which enforces
positivity).  Page offsets and sizes are non-negative in every use the
client makes of them, so Go `int` is rendered as `Nat`. -/
structure Client where
  baseURL : String
  realm : String
  pageSize : Nat
deriving DecidableEq, Repr

/-- The `defaultSize` constant from `client.go`. -/
def defaultSize : Nat := 50

/-- Embedding of `Client.buildURL` (`endpoint.go`): replace every
`{realm}` occurrence with the configured realm, then replace `{key}` with
its value for every entry of the parameter map, and prepend the base URL.
The Go parameter map is iterated in unspecified order; it is rendered as
an association list folded left-to-right (every call site passes at most
one key, so the order is immaterial to the program). -/
def buildURL (c : Client) (ep : Endpoint) (params : List (String × String)) : String :=
  c.baseURL ++
    params.foldl (fun path kv => replaceAll path ("\x7b" ++ kv.1 ++ "\x7d") kv.2)
      (replaceAll ep.path "{realm}" c.realm)

/-! ## Transport model -/

/-- An outgoing HTTP request as the client assembles it: method, URL from
`buildURL`, and the query-parameter map (association list). -/
structure Request where
  method : String
  url : String
  query : List (String × String)
deriving DecidableEq, Repr

/-- A decoded transport reply: status code, the `Location` header (`""`
when absent, exactly as Go's `Header.Get`), and the decoded body for
whichever result type the operation requested. -/
structure Response where
  status : Nat
  location : String := ""
  groups : List (Option Group) := []
  group : Group := .mk none none none none
  users : List (Option User) := []
  perm : ManagementPermissionReference := {}

/-- The transport oracle: what the server answers to each request. -/
abbrev Net := Request → Response

/-- resty's `Response.IsSuccess`: `code > 199 && code < 300`. -/
def isSuccess (status : Nat) : Bool := 199 < status && status < 300

/-! ## Query-parameter projection (`mapper`, `util.go`)

Go's `mapper` marshals the parameter record to JSON and back into a
`map[string]string`: `nil` pointers vanish (`omitempty`), `,string`-tagged
booleans and integers come back as `"true"`/`"false"` and decimal
strings, plain string fields come back verbatim.  The functions below are
that projection specialised to each parameter record, with the Go map
rendered as an association list in struct-field order (the claims only
look keys up, never at order).  `mapper` can only fail on values that
JSON cannot represent, which none of these records contain, so the
embedding is total. -/

/-- Rendering `fmt.Sprintf("%v", b)` of a JSON boolean. -/
def boolString (b : Bool) : String := if b then "true" else "false"

/-- One optional query entry: `nil` pointers are omitted. -/
def optEntry (key : String) : Option String → List (String × String)
  | none => []
  | some v => [(key, v)]

/-- Embedding of `SearchGroupParams` (`group_model.go`): each Go pointer
field is an `Option`; `first`/`max` carry the non-negative offsets and
limits the client uses. -/
structure SearchGroupParams where
  briefRepresentation : Option Bool := none
  populateHierarchy : Option Bool := none
  exact : Option Bool := none
  first : Option Nat := none
  full : Option Bool := none
  max : Option Nat := none
  q : Option String := none
  search : Option String := none
  subGroupsCount : Option Bool := none
deriving DecidableEq, Repr

/-- Projection `mapper` on a `SearchGroupParams` record. -/
def mapper (p : SearchGroupParams) : List (String × String) :=
  optEntry "briefRepresentation" (p.briefRepresentation.map boolString) ++
  optEntry "populateHierarchy" (p.populateHierarchy.map boolString) ++
  optEntry "exact" (p.exact.map boolString) ++
  optEntry "first" (p.first.map toString) ++
  optEntry "full" (p.full.map boolString) ++
  optEntry "max" (p.max.map toString) ++
  optEntry "q" p.q ++
  optEntry "search" p.search ++
  optEntry "subGroupsCount" (p.subGroupsCount.map boolString)

/-- Embedding of `SubGroupSearchParams` (`group_model.go`). -/
structure SubGroupSearchParams where
  briefRepresentation : Option Bool := none
  exact : Option Bool := none
  first : Option Nat := none
  max : Option Nat := none
  search : Option String := none
  subGroupsCount : Option Bool := none
deriving DecidableEq, Repr

/-- Projection `mapper` on a `SubGroupSearchParams` record. -/
def mapperSubGroup (p : SubGroupSearchParams) : List (String × String) :=
  optEntry "briefRepresentation" (p.briefRepresentation.map boolString) ++
  optEntry "exact" (p.exact.map boolString) ++
  optEntry "first" (p.first.map toString) ++
  optEntry "max" (p.max.map toString) ++
  optEntry "search" p.search ++
  optEntry "subGroupsCount" (p.subGroupsCount.map boolString)

/-- Embedding of `GroupMembersParams` (`group_model.go`). -/
structure GroupMembersParams where
  briefRepresentation : Option Bool := none
  first : Option Nat := none
  max : Option Nat := none
deriving DecidableEq, Repr

/-- Projection `mapper` on a `GroupMembersParams` record. -/
def mapperMembers (p : GroupMembersParams) : List (String × String) :=
  optEntry "briefRepresentation" (p.briefRepresentation.map boolString) ++
  optEntry "first" (p.first.map toString) ++
  optEntry "max" (p.max.map toString)

/-! ## Group operations (`group.go`)

Each operation takes the client configuration and the transport oracle
and returns its Go result (`Except KeycloakError _` for the
`(value, error)` pair) together with the list of requests it issued, in
order.  The local-validation early returns issue no request, exactly as
in the source. -/

/-- Predicate `ptr.IsZero` on a `*string`: `nil` or pointing at the zero value. -/
def ptrIsZero : Option String → Bool
  | none => true
  | some s => s = ""

/-- Embedding of `getID` (`group.go`) via Go's `path.Base`: an empty
`Location` header gives `""`; otherwise trailing slashes are stripped,
and the part after the last remaining `/` is returned (`"/"` when the
header was nothing but slashes). -/
def getID (location : String) : String :=
  if location = "" then ""
  else
    let stripped := (location.toList.reverse.dropWhile (fun c => c = '/')).reverse
    if stripped = [] then "/"
    else String.mk ((stripped.reverse.takeWhile (fun c => c ≠ '/')).reverse)

/-- Embedding of `Create`: POST the groups collection, return the id extracted from
the `Location` header.  The request body (name and attributes) is not
modelled; no claim reads it. -/
def Create (c : Client) (net : Net) (_name : String)
    (_attributes : List (String × List String)) :
    Except KeycloakError String × List Request :=
  let req : Request := ⟨"POST", buildURL c endpointGroupsCreate [], []⟩
  let resp := net req
  if isSuccess resp.status then (.ok (getID resp.location), [req])
  else (.error (.remote "unable to create group"), [req])

/-- Embedding of `Update`: validate the id (`ptr.IsZero(group.ID)`), then PUT the
group. -/
def Update (c : Client) (net : Net) (group : Group) :
    Except KeycloakError Unit × List Request :=
  if ptrIsZero group.id then
    (.error (.validation "the ID of the group is required"), [])
  else
    let req : Request :=
      ⟨"PUT", buildURL c endpointGroupUpdate [("groupID", group.id.getD "")], []⟩
    let resp := net req
    if isSuccess resp.status then (.ok (), [req])
    else (.error (.remote "unable to update group"), [req])

/-- Embedding of `Delete`: validate the id, then DELETE the group. -/
def Delete (c : Client) (net : Net) (groupID : String) :
    Except KeycloakError Unit × List Request :=
  if groupID = "" then
    (.error (.validation "groupID parameter cannot be empty"), [])
  else
    let req : Request :=
      ⟨"DELETE", buildURL c endpointGroupDelete [("groupID", groupID)], []⟩
    let resp := net req
    if isSuccess resp.status then (.ok (), [req])
    else (.error (.remote "unable to delete group"), [req])

/-- The internal `list` helper: project the parameters and GET the groups
collection. -/
def list (c : Client) (net : Net) (params : SearchGroupParams) :
    Except KeycloakError (List (Option Group)) × List Request :=
  let queryParams := mapper params
  let req : Request := ⟨"GET", buildURL c endpointGroupsList [], queryParams⟩
  let resp := net req
  if isSuccess resp.status then (.ok resp.groups, [req])
  else (.error (.remote "unable to list groups"), [req])

/-- Embedding of `ListPaginated`: the `list` helper with search, brief flag, offset
and limit set. -/
def ListPaginated (c : Client) (net : Net) (search : Option String)
    (briefRepresentation : Bool) (first max : Nat) :
    Except KeycloakError (List (Option Group)) × List Request :=
  list c net
    { search := search
      briefRepresentation := some briefRepresentation
      first := some first
      max := some max }

/-- Embedding of `ListWithSubGroups`: the `list` helper with the search parameter
always set (even to `""`) and `populateHierarchy` forced to `true`. -/
def ListWithSubGroups (c : Client) (net : Net) (searchQuery : String)
    (briefRepresentation : Bool) (first max : Nat) :
    Except KeycloakError (List (Option Group)) × List Request :=
  list c net
    { search := some searchQuery
      briefRepresentation := some briefRepresentation
      populateHierarchy := some true
      first := some first
      max := some max }

/-- Embedding of `Get`: validate the id, GET the group; a non-success status of 404
returns the `ErrGroupNotFound` sentinel. -/
def Get (c : Client) (net : Net) (groupID : String) :
    Except KeycloakError Group × List Request :=
  if groupID = "" then
    (.error (.validation "groupID parameter cannot be empty"), [])
  else
    let req : Request :=
      ⟨"GET", buildURL c endpointGroupGet [("groupID", groupID)], []⟩
    let resp := net req
    if isSuccess resp.status then (.ok resp.group, [req])
    else if resp.status = 404 then (.error .groupNotFound, [req])
    else (.error (.remote "unable to get group"), [req])

/-- The page-fetch loop of `GetByAttribute`.  The Go `for` loop has no
bound, so the model takes fuel: a `none` outcome means the loop was still
running after `fuel` iterations (each theorem supplies enough fuel).  One
iteration: fetch the current page through `ListPaginated`, return a
matching group if the page scan finds one, stop with `ErrGroupNotFound`
on a short page, otherwise advance to the next page. -/
def getByAttributeLoop (c : Client) (net : Net) (attr : GroupAttribute) :
    Nat → Nat → Option (Except KeycloakError Group) × List Request
  | 0, _ => (none, [])
  | fuel + 1, currentPage =>
    match ListPaginated c net none false (currentPage * c.pageSize) c.pageSize with
    | (.error e, reqs) => (some (.error e), reqs)
    | (.ok groups, reqs) =>
      match findGroupByAttribute groups attr with
      | some group => (some (.ok group), reqs)
      | none =>
        if groups.length < c.pageSize then (some (.error .groupNotFound), reqs)
        else
          let next := getByAttributeLoop c net attr fuel (currentPage + 1)
          (next.1, reqs ++ next.2)

/-- Embedding of `GetByAttribute`: reject a `nil` attribute pointer, then run the
client-side paginated scan from page 0. -/
def GetByAttribute (c : Client) (net : Net) (attr : Option GroupAttribute)
    (fuel : Nat) : Option (Except KeycloakError Group) × List Request :=
  match attr with
  | none => (some (.error (.validation "attribute parameter cannot be nil")), [])
  | some attr => getByAttributeLoop c net attr fuel 0

/-- The scan inside `GetSubGroupByID`: first subgroup that is non-`nil`,
has a non-`nil` id, and whose id equals the searched one. -/
def getSubGroupByIDScan : List (Option Group) → String → Option Group
  | [], _ => none
  | none :: rest, subGroupID => getSubGroupByIDScan rest subGroupID
  | some subGroup :: rest, subGroupID =>
    match subGroup.id with
    | none => getSubGroupByIDScan rest subGroupID
    | some i =>
      if i = subGroupID then some subGroup
      else getSubGroupByIDScan rest subGroupID

/-- Embedding of `GetSubGroupByID`: purely in-memory lookup in the parent's
`SubGroups`; `ErrGroupNotFound` when `SubGroups` is `nil` or nothing
matches.  Note: the source performs no emptiness validation on
`subGroupID`. -/
def GetSubGroupByID (group : Group) (subGroupID : String) :
    Except KeycloakError Group :=
  match group.subGroups with
  | none => .error .groupNotFound
  | some subGroups =>
    match getSubGroupByIDScan subGroups subGroupID with
    | some subGroup => .ok subGroup
    | none => .error .groupNotFound

/-- Embedding of `GetSubGroupByAttribute`: purely in-memory `findGroupByAttribute`
over the parent's `SubGroups`. -/
def GetSubGroupByAttribute (group : Group) (attr : GroupAttribute) :
    Except KeycloakError Group :=
  match group.subGroups with
  | none => .error .groupNotFound
  | some subGroups =>
    match findGroupByAttribute subGroups attr with
    | some subGroup => .ok subGroup
    | none => .error .groupNotFound

/-- Embedding of `CreateSubGroup`: validate the parent id, POST the children
collection, return the id from the `Location` header (the body is not
modelled). -/
def CreateSubGroup (c : Client) (net : Net) (groupID _name : String)
    (_attributes : List (String × List String)) :
    Except KeycloakError String × List Request :=
  if groupID = "" then
    (.error (.validation "groupID parameter cannot be empty"), [])
  else
    let req : Request :=
      ⟨"POST", buildURL c endpointGroupChildCreate [("groupID", groupID)], []⟩
    let resp := net req
    if isSuccess resp.status then (.ok (getID resp.location), [req])
    else (.error (.remote "unable to create sub-group"), [req])

/-- Embedding of `ListSubGroups`: validate the parent id, GET the children
collection. -/
def ListSubGroups (c : Client) (net : Net) (groupID : String) :
    Except KeycloakError (List (Option Group)) × List Request :=
  if groupID = "" then
    (.error (.validation "groupID parameter cannot be empty"), [])
  else
    let req : Request :=
      ⟨"GET", buildURL c endpointGroupChildren [("groupID", groupID)], []⟩
    let resp := net req
    if isSuccess resp.status then (.ok resp.groups, [req])
    else (.error (.remote "unable to list groups"), [req])

/-- Embedding of `ListSubGroupsPaginated`: validate the parent id, project the
parameters, GET the children collection. -/
def ListSubGroupsPaginated (c : Client) (net : Net) (groupID : String)
    (params : SubGroupSearchParams) :
    Except KeycloakError (List (Option Group)) × List Request :=
  if groupID = "" then
    (.error (.validation "groupID parameter cannot be empty"), [])
  else
    let req : Request :=
      ⟨"GET", buildURL c endpointGroupChildren [("groupID", groupID)],
        mapperSubGroup params⟩
    let resp := net req
    if isSuccess resp.status then (.ok resp.groups, [req])
    else (.error (.remote "unable to list sub-groups"), [req])

/-- Embedding of `ListMembers`: validate the group id, project the parameters, GET the
members collection. -/
def ListMembers (c : Client) (net : Net) (groupID : String)
    (params : GroupMembersParams) :
    Except KeycloakError (List (Option User)) × List Request :=
  if groupID = "" then
    (.error (.validation "groupID parameter cannot be empty"), [])
  else
    let req : Request :=
      ⟨"GET", buildURL c endpointGroupMembers [("groupID", groupID)],
        mapperMembers params⟩
    let resp := net req
    if isSuccess resp.status then (.ok resp.users, [req])
    else (.error (.remote "unable to list group members"), [req])

/-- Embedding of `GetManagementPermissions`: validate the group id, GET the
management-permissions sub-resource. -/
def GetManagementPermissions (c : Client) (net : Net) (groupID : String) :
    Except KeycloakError ManagementPermissionReference × List Request :=
  if groupID = "" then
    (.error (.validation "groupID parameter cannot be empty"), [])
  else
    let req : Request :=
      ⟨"GET", buildURL c endpointGroupPermsGet [("groupID", groupID)], []⟩
    let resp := net req
    if isSuccess resp.status then (.ok resp.perm, [req])
    else (.error (.remote "unable to get management permissions"), [req])

/-- Embedding of `UpdateManagementPermissions`: validate the group id, PUT the
management-permissions sub-resource (the body is not modelled). -/
def UpdateManagementPermissions (c : Client) (net : Net) (groupID : String)
    (_ref : ManagementPermissionReference) :
    Except KeycloakError ManagementPermissionReference × List Request :=
  if groupID = "" then
    (.error (.validation "groupID parameter cannot be empty"), [])
  else
    let req : Request :=
      ⟨"PUT", buildURL c endpointGroupPermsUpdate [("groupID", groupID)], []⟩
    let resp := net req
    if isSuccess resp.status then (.ok resp.perm, [req])
    else (.error (.remote "unable to update management permissions"), [req])

/-! ## Derived notions used by the statements -/

/-- Page `i` (0-indexed) of a realm that holds the groups `l`, served
with page size `P`: the slice `l[i*P : i*P+P]`. -/
def pageOf (l : List (Option Group)) (P i : Nat) : List (Option Group) :=
  (l.drop (i * P)).take P

/-- The request `GetByAttribute` issues for page `i`: the `ListPaginated`
request with no search term, full representations, offset `i * pageSize`
and limit `pageSize`. -/
def pageRequest (c : Client) (i : Nat) : Request :=
  ⟨"GET", buildURL c endpointGroupsList [],
    mapper
      { briefRepresentation := some false
        first := some (i * c.pageSize)
        max := some c.pageSize }⟩

/-- The reply of a well-behaved paginated server holding the groups `l`:
status 200 and the `i`-th page slice. -/
def pageResponse (l : List (Option Group)) (c : Client) (i : Nat) : Response :=
  { status := 200, groups := pageOf l c.pageSize i }

/-- An entry that the `findGroupByAttribute` scan steps over without
stopping: a `nil` group, a group with `nil` attributes, one without the
searched key, or one whose single value for the key differs from the
searched value. -/
def skipsEntry (attr : GroupAttribute) : Option Group → Prop
  | none => True
  | some group =>
    group.attributes = none ∨
    ∃ groupAttributes, group.attributes = some groupAttributes ∧
      (groupAttributes.lookup attr.key = none ∨
        ∃ v, groupAttributes.lookup attr.key = some [v] ∧ v ≠ attr.value)

/-- Modelled from the spec: the "last `/`-delimited segment" of a string,
i.e. the suffix after the final `/` (the whole string when no `/`
occurs). -/
def specLastSegment (s : String) : String :=
  String.mk ((s.toList.reverse.takeWhile (fun c => c ≠ '/')).reverse)

/-- Modelled from the spec, amended: the id extracted from a `Location`
header value — `""` when the header is absent/empty, otherwise the last
`/`-delimited segment after trailing slashes are stripped (`"/"` when the
value consists solely of slashes). -/
def specLocationID (location : String) : String :=
  if location = "" then ""
  else
    let stripped := String.mk ((location.toList.reverse.dropWhile (fun c => c = '/')).reverse)
    if stripped = "" then "/" else specLastSegment stripped

/-! ### Concrete groups for counterexamples and witnesses -/

/-- A group whose attributes map `"k"` to the two values `["v", "w"]`. -/
def gMulti : Group := .mk (some "g0") none (some [("k", ["v", "w"])]) none

/-- A group whose attributes map `"k"` to exactly `["v"]`. -/
def gSingle : Group := .mk (some "g1") none (some [("k", ["v"])]) none

/-- A group whose attributes map `"k"` to `["x"]` (present, single, but a
different value). -/
def gOther : Group := .mk (some "g2") none (some [("k", ["x"])]) none

/-- A subgroup whose id is the empty string. -/
def gEmptyID : Group := .mk (some "") none none none

/-- A client with page size 1 against a fixed base URL and realm. -/
def cOne : Client := ⟨"http://kc", "r1", 1⟩

/-- A transport whose every reply is an empty 200 page. -/
def netEmpty : Net := fun _ => { status := 200 }

/-- A transport that answers 404 to everything. -/
def net404 : Net := fun _ => { status := 404 }

/-- A transport simulating a realm that holds exactly the group
`gSingle`, served with page size 1: the page at offset 0 holds the group,
every other page is empty. -/
def netOnePage : Net := fun req =>
  match req.query.lookup "first" with
  | some "0" => { status := 200, groups := [some gSingle] }
  | _ => { status := 200 }

/-- A transport answering 201 with a `Location` header value that ends in
a trailing slash. -/
def netCreatedSlash : Net := fun _ =>
  { status := 201, location := "http://kc/admin/realms/r1/groups/abc123/" }

/-- A transport answering 201 with a clean `Location` header. -/
def netCreated : Net := fun _ =>
  { status := 201, location := "http://kc/admin/realms/r1/groups/abc123" }

/-! ## Lemmas about `strings.ReplaceAll` -/

theorem replaceAllChars_nil (pat rep : List Char) :
    replaceAllChars pat rep [] = [] := by
  rw [replaceAllChars]

theorem replaceAllChars_cons (pat rep : List Char) (c : Char) (rest : List Char) :
    replaceAllChars pat rep (c :: rest) =
      if pat ≠ [] ∧ pat.isPrefixOf (c :: rest) then
        rep ++ replaceAllChars pat rep (rest.drop (pat.length - 1))
      else
        c :: replaceAllChars pat rep rest := by
  rw [replaceAllChars]

/-- A replacement pass walks over a leading block that does not contain
the pattern's first character. -/
theorem replaceAllChars_append_left (pat rep : List Char) (c0 : Char)
    (hc : pat.head? = some c0) (a b : List Char) (h : c0 ∉ a) :
    replaceAllChars pat rep (a ++ b) = a ++ replaceAllChars pat rep b := by
  obtain ⟨t, rfl⟩ : ∃ t, pat = c0 :: t := by
    cases pat with
    | nil => simp at hc
    | cons x xs =>
      simp only [List.head?, Option.some.injEq] at hc
      exact ⟨xs, by rw [hc]⟩
  induction a with
  | nil => simp
  | cons c a ih =>
    have hne : c0 ≠ c := fun e => h (e ▸ List.mem_cons_self c a)
    rw [List.cons_append, replaceAllChars_cons, if_neg,
      ih (fun hm => h (List.mem_cons_of_mem _ hm))]
    · simp
    · rintro ⟨-, hpre⟩
      simp only [List.isPrefixOf, Bool.and_eq_true, beq_iff_eq] at hpre
      exact hne hpre.1

/-- A replacement pass consumes the pattern at the front of the string
and emits the replacement. -/
theorem replaceAllChars_consume (pat rep : List Char) (hpat : pat ≠ [])
    (b : List Char) :
    replaceAllChars pat rep (pat ++ b) = rep ++ replaceAllChars pat rep b := by
  obtain ⟨c0, t, rfl⟩ : ∃ c0 t, pat = c0 :: t := by
    cases pat with
    | nil => exact absurd rfl hpat
    | cons x xs => exact ⟨x, xs, rfl⟩
  have hpre : ∀ l b : List Char, l.isPrefixOf (l ++ b) = true := by
    intro l
    induction l with
    | nil => intro b; simp [List.isPrefixOf]
    | cons x xs ih => intro b; simp [List.isPrefixOf, ih b]
  rw [List.cons_append, replaceAllChars_cons, if_pos]
  · simp [List.drop_left]
  · exact ⟨by simp, by rw [← List.cons_append]; exact hpre _ b⟩

/-- A replacement pass is the identity on a string in which the pattern
does not occur. -/
theorem replaceAllChars_no_occurrence (pat rep : List Char) :
    ∀ s : List Char, containsPat pat s = false → replaceAllChars pat rep s = s
  | [], _ => replaceAllChars_nil pat rep
  | c :: rest, h => by
    simp only [containsPat, Bool.or_eq_false_iff] at h
    rw [replaceAllChars_cons, if_neg, replaceAllChars_no_occurrence pat rep rest h.2]
    rintro ⟨-, hpre⟩
    rw [h.1] at hpre
    exact Bool.false_ne_true hpre

/-- Full replacement pass over a template `A ++ pat ++ B` whose prefix
avoids the pattern's first character and whose suffix does not contain
the pattern. -/
theorem replaceAllChars_template (pat rep A B : List Char) (c0 : Char)
    (hc : pat.head? = some c0) (hA : c0 ∉ A) (hB : containsPat pat B = false) :
    replaceAllChars pat rep (A ++ pat ++ B) = A ++ (rep ++ B) := by
  have hpat : pat ≠ [] := by
    cases pat with
    | nil => simp at hc
    | cons x xs => simp
  rw [List.append_assoc, replaceAllChars_append_left pat rep c0 hc A _ hA,
    replaceAllChars_consume pat rep hpat B,
    replaceAllChars_no_occurrence pat rep B hB]

/-- Lemma `replaceAllChars_template` lifted to `String`. -/
theorem replaceAll_template (A pat B rep : String) (c0 : Char)
    (hc : pat.toList.head? = some c0) (hA : c0 ∉ A.toList)
    (hB : containsPat pat.toList B.toList = false) :
    replaceAll (A ++ pat ++ B) pat rep = A ++ (rep ++ B) :=
  calc replaceAll (A ++ pat ++ B) pat rep
      = String.mk (replaceAllChars pat.toList rep.toList
          (A.toList ++ pat.toList ++ B.toList)) := rfl
    _ = String.mk (A.toList ++ (rep.toList ++ B.toList)) := by
        rw [replaceAllChars_template pat.toList rep.toList A.toList B.toList c0 hc hA hB]
    _ = A ++ (rep ++ B) := rfl

/-- A whole replacement pass is the identity on a string that avoids the
pattern's first character. -/
theorem replaceAll_no_first_char (s pat rep : String) (c0 : Char)
    (hc : pat.toList.head? = some c0) (h : c0 ∉ s.toList) :
    replaceAll s pat rep = s := by
  have hchars := replaceAllChars_append_left pat.toList rep.toList c0 hc s.toList [] h
  rw [List.append_nil, replaceAllChars_nil, List.append_nil] at hchars
  calc replaceAll s pat rep
      = String.mk (replaceAllChars pat.toList rep.toList s.toList) := rfl
    _ = String.mk s.toList := by rw [hchars]
    _ = s := rfl

/-! ## Lemmas about the attribute scan -/
theorem find_skip (attr : GroupAttribute) (x : Option Group) (rest : List (Option Group))
    (hx : skipsEntry attr x) :
    findGroupByAttribute (x :: rest) attr = findGroupByAttribute rest attr := by
  cases x with
  | none => rfl
  | some g =>
    rcases hx with hattrs | ⟨attrs, hattrs, hkey | ⟨v, hkey, hv⟩⟩
    · simp [findGroupByAttribute, hattrs]
    · simp [findGroupByAttribute, hattrs, hkey]
    · simp [findGroupByAttribute, hattrs, hkey, hv]

theorem find_prefix_skips (attr : GroupAttribute) (pre rest : List (Option Group))
    (h : ∀ x ∈ pre, skipsEntry attr x) :
    findGroupByAttribute (pre ++ rest) attr = findGroupByAttribute rest attr := by
  induction pre with
  | nil => rfl
  | cons x pre ih =>
    rw [List.cons_append, find_skip attr x _ (h x (List.mem_cons_self x pre)),
      ih (fun y hy => h y (List.mem_cons_of_mem _ hy))]

theorem find_match_head (attr : GroupAttribute) (g : Group) (rest : List (Option Group))
    (attrs : List (String × List String)) (hattrs : g.attributes = some attrs)
    (hkey : attrs.lookup attr.key = some [attr.value]) :
    findGroupByAttribute (some g :: rest) attr = some g := by
  simp [findGroupByAttribute, hattrs, hkey]

theorem find_abort_head (attr : GroupAttribute) (g : Group) (rest : List (Option Group))
    (attrs : List (String × List String)) (l : List String)
    (hattrs : g.attributes = some attrs) (hkey : attrs.lookup attr.key = some l)
    (hlen : l.length ≠ 1) :
    findGroupByAttribute (some g :: rest) attr = none := by
  simp [findGroupByAttribute, hattrs, hkey, hlen]

theorem find_found_single (attr : GroupAttribute) :
    ∀ (groups : List (Option Group)) (g : Group),
      findGroupByAttribute groups attr = some g →
      ∃ attrs, g.attributes = some attrs ∧ attrs.lookup attr.key = some [attr.value]
  | [], g, h => by simp [findGroupByAttribute] at h
  | none :: rest, g, h => find_found_single attr rest g h
  | some x :: rest, g, h => by
    rcases hx : x.attributes with - | attrs
    · rw [findGroupByAttribute, hx] at h
      exact find_found_single attr rest g h
    · rcases hk : attrs.lookup attr.key with - | value
      · rw [findGroupByAttribute, hx] at h
        dsimp only at h
        rw [hk] at h
        exact find_found_single attr rest g h
      · rw [findGroupByAttribute, hx] at h
        dsimp only at h
        rw [hk] at h
        dsimp only at h
        by_cases hlen : value.length ≠ 1
        · rw [if_pos hlen] at h
          exact absurd h (by simp)
        · rw [if_neg hlen] at h
          push_neg at hlen
          obtain ⟨v, rfl⟩ := List.length_eq_one.mp hlen
          by_cases hv : [v].headD "" = attr.value
          · rw [if_pos hv] at h
            obtain rfl : x = g := by simpa using h
            simp only [List.headD] at hv
            exact ⟨attrs, hx, by rw [hk, hv]⟩
          · rw [if_neg hv] at h
            exact find_found_single attr rest g h


/-! ## Lemmas about the page-fetch loop -/
theorem listPaginated_page (c : Client) (net : Net) (l : List (Option Group)) (i : Nat)
    (hnet : net (pageRequest c i) = pageResponse l c i) :
    ListPaginated c net none false (i * c.pageSize) c.pageSize
      = (.ok (pageOf l c.pageSize i), [pageRequest c i]) := by
  have hreq : (⟨"GET", buildURL c endpointGroupsList [],
      mapper { search := none, briefRepresentation := some false,
               first := some (i * c.pageSize), max := some c.pageSize }⟩ : Request)
      = pageRequest c i := rfl
  unfold ListPaginated list
  dsimp only
  rw [hreq, hnet]
  rfl

theorem listPaginated_snd (c : Client) (net : Net) (i : Nat) :
    (ListPaginated c net none false (i * c.pageSize) c.pageSize).2 = [pageRequest c i] := by
  unfold ListPaginated list
  dsimp only
  split <;> rfl

theorem getByAttributeLoop_trace (c : Client) (net : Net) (attr : GroupAttribute)
    (fuel : Nat) : ∀ start, ∃ n, (getByAttributeLoop c net attr fuel start).2
      = (List.range' start n).map (pageRequest c) := by
  induction fuel with
  | zero => exact fun start => ⟨0, rfl⟩
  | succ fuel ih =>
    intro start
    rcases h : ListPaginated c net none false (start * c.pageSize) c.pageSize with ⟨res, reqs⟩
    have hreqs : reqs = [pageRequest c start] := by
      have h2 := listPaginated_snd c net start
      rw [h] at h2
      exact h2
    subst hreqs
    cases res with
    | error e =>
      refine ⟨1, ?_⟩
      simp only [getByAttributeLoop, h]
      rfl
    | ok groups =>
      cases hf : findGroupByAttribute groups attr with
      | some g =>
        refine ⟨1, ?_⟩
        simp only [getByAttributeLoop, h, hf]
        rfl
      | none =>
        by_cases hlen : groups.length < c.pageSize
        · refine ⟨1, ?_⟩
          simp only [getByAttributeLoop, h, hf, if_pos hlen]
          rfl
        · obtain ⟨n, hn⟩ := ih (start + 1)
          refine ⟨n + 1, ?_⟩
          simp only [getByAttributeLoop, h, hf, if_neg hlen]
          rw [hn, List.range'_succ]
          rfl

theorem pageOf_length (l : List (Option Group)) (P i : Nat) :
    (pageOf l P i).length = min P (l.length - i * P) := by
  simp [pageOf]

theorem pageOf_full_not_short (l : List (Option Group)) (c : Client) (start : Nat)
    (hstep : (start + 1) * c.pageSize ≤ l.length) :
    ¬ (pageOf l c.pageSize start).length < c.pageSize := by
  have hstep2 : start * c.pageSize + c.pageSize ≤ l.length := by
    calc start * c.pageSize + c.pageSize = (start + 1) * c.pageSize := by ring
      _ ≤ l.length := hstep
  have hge : c.pageSize ≤ l.length - start * c.pageSize := by omega
  rw [pageOf_length, Nat.min_eq_left hge]
  omega

theorem getByAttributeLoop_found (c : Client) (net : Net) (attr : GroupAttribute)
    (l : List (Option Group)) (hP : 0 < c.pageSize)
    (hnet : ∀ i ≤ l.length / c.pageSize, net (pageRequest c i) = pageResponse l c i)
    (K : Nat) (g : Group)
    (hmatch : findGroupByAttribute (pageOf l c.pageSize K) attr = some g)
    (hprev : ∀ j < K, findGroupByAttribute (pageOf l c.pageSize j) attr = none) :
    ∀ fuel start, start ≤ K → K + 1 ≤ start + fuel →
      getByAttributeLoop c net attr fuel start
        = (some (.ok g), (List.range' start (K + 1 - start)).map (pageRequest c)) := by
  have hKP : K * c.pageSize < l.length := by
    by_contra hc
    push_neg at hc
    have hnil : pageOf l c.pageSize K = [] := by
      unfold pageOf
      rw [List.drop_eq_nil_of_le hc]
      exact List.take_nil
    rw [hnil] at hmatch
    simp [findGroupByAttribute] at hmatch
  have hK : K ≤ l.length / c.pageSize := (Nat.le_div_iff_mul_le hP).mpr (le_of_lt hKP)
  intro fuel
  induction fuel with
  | zero => intro start h1 h2; omega
  | succ fuel ih =>
    intro start h1 h2
    have hi : start ≤ l.length / c.pageSize := le_trans h1 hK
    have hpage := listPaginated_page c net l start (hnet start hi)
    by_cases hs : start = K
    · subst hs
      simp only [getByAttributeLoop, hpage, hmatch]
      have e1 : start + 1 - start = 1 := by omega
      rw [e1]
      rfl
    · have hlt : start < K := lt_of_le_of_ne h1 hs
      have hfind := hprev start hlt
      have hfull : ¬ (pageOf l c.pageSize start).length < c.pageSize :=
        pageOf_full_not_short l c start
          (le_trans (Nat.mul_le_mul_right _ hlt) (le_of_lt hKP))
      simp only [getByAttributeLoop, hpage, hfind, if_neg hfull]
      rw [ih (start + 1) (by omega) (by omega)]
      have e1 : K + 1 - start = (K - start) + 1 := by omega
      have e2 : K + 1 - (start + 1) = K - start := by omega
      rw [e1, e2, List.range'_succ]
      rfl

theorem getByAttributeLoop_notFound (c : Client) (net : Net) (attr : GroupAttribute)
    (l : List (Option Group)) (hP : 0 < c.pageSize)
    (hnet : ∀ i ≤ l.length / c.pageSize, net (pageRequest c i) = pageResponse l c i)
    (hnone : ∀ j ≤ l.length / c.pageSize, findGroupByAttribute (pageOf l c.pageSize j) attr = none) :
    ∀ fuel start, start ≤ l.length / c.pageSize →
      l.length / c.pageSize + 1 ≤ start + fuel →
      getByAttributeLoop c net attr fuel start
        = (some (.error .groupNotFound),
            (List.range' start (l.length / c.pageSize + 1 - start)).map (pageRequest c)) := by
  intro fuel
  induction fuel with
  | zero => intro start h1 h2; omega
  | succ fuel ih =>
    intro start h1 h2
    have hpage := listPaginated_page c net l start (hnet start h1)
    have hfind := hnone start h1
    by_cases hs : start = l.length / c.pageSize
    · have hshort : (pageOf l c.pageSize start).length < c.pageSize := by
        have hdm := Nat.div_add_mod l.length c.pageSize
        have hmod := Nat.mod_lt l.length hP
        have hcomm : start * c.pageSize = c.pageSize * (l.length / c.pageSize) := by
          rw [hs]; ring
        have hmodeq : l.length - start * c.pageSize = l.length % c.pageSize := by omega
        rw [pageOf_length, hmodeq, Nat.min_eq_right (le_of_lt hmod)]
        exact hmod
      simp only [getByAttributeLoop, hpage, hfind, if_pos hshort]
      have e1 : l.length / c.pageSize + 1 - start = 1 := by omega
      rw [e1]
      rfl
    · have hlt : start < l.length / c.pageSize := lt_of_le_of_ne h1 hs
      have hfull : ¬ (pageOf l c.pageSize start).length < c.pageSize :=
        pageOf_full_not_short l c start
          (le_trans (Nat.mul_le_mul_right _ hlt) (Nat.div_mul_le_self _ _))
      simp only [getByAttributeLoop, hpage, hfind, if_neg hfull]
      rw [ih (start + 1) (by omega) (by omega)]
      have e1 : l.length / c.pageSize + 1 - start = (l.length / c.pageSize - start) + 1 := by omega
      have e2 : l.length / c.pageSize + 1 - (start + 1) = l.length / c.pageSize - start := by omega
      rw [e1, e2, List.range'_succ]
      rfl


/-! ## Lemmas about URL building and id extraction -/
theorem buildURL_noparams (c : Client) (ep : Endpoint) (suf : String)
    (hp : ep.path = "/admin/realms/" ++ "{realm}" ++ suf)
    (hsuf : containsPat "{realm}".toList suf.toList = false) :
    buildURL c ep [] = c.baseURL ++ "/admin/realms/" ++ c.realm ++ suf := by
  unfold buildURL
  rw [List.foldl_nil, hp,
    replaceAll_template "/admin/realms/" "{realm}" suf c.realm '{' (by decide) (by decide) hsuf]
  simp [String.append_assoc]

theorem buildURL_groupID (c : Client) (ep : Endpoint) (mid suf gid : String)
    (hrealm : '{' ∉ c.realm.toList)
    (hp : ep.path = "/admin/realms/" ++ "{realm}" ++ (mid ++ "{groupID}" ++ suf))
    (hmid : '{' ∉ mid.toList)
    (hfull : containsPat "{realm}".toList (mid ++ "{groupID}" ++ suf).toList = false)
    (hsuf : containsPat "{groupID}".toList suf.toList = false) :
    buildURL c ep [("groupID", gid)]
      = c.baseURL ++ "/admin/realms/" ++ c.realm ++ mid ++ gid ++ suf := by
  unfold buildURL
  rw [hp, replaceAll_template "/admin/realms/" "{realm}" (mid ++ "{groupID}" ++ suf) c.realm '{'
      (by decide) (by decide) hfull]
  simp only [List.foldl_cons, List.foldl_nil]
  rw [show ("\x7b" ++ ("groupID", gid).1 ++ "\x7d" : String) = "{groupID}" from rfl]
  have hsplit : "/admin/realms/" ++ (c.realm ++ (mid ++ "{groupID}" ++ suf))
      = ("/admin/realms/" ++ c.realm ++ mid) ++ "{groupID}" ++ suf := by
    simp [String.append_assoc]
  rw [hsplit, replaceAll_template ("/admin/realms/" ++ c.realm ++ mid) "{groupID}" suf gid '{'
      (by decide) ?_ hsuf]
  · simp [String.append_assoc]
  · intro hmem
    have hdata : ("/admin/realms/" ++ c.realm ++ mid).toList
        = "/admin/realms/".toList ++ c.realm.toList ++ mid.toList := rfl
    rw [hdata] at hmem
    simp only [List.mem_append] at hmem
    rcases hmem with (hm | hm) | hm
    · exact absurd hm (by decide)
    · exact hrealm hm
    · exact hmid hm

theorem getID_eq_specLocationID (location : String) :
    getID location = specLocationID location := by
  unfold getID specLocationID specLastSegment
  dsimp only
  by_cases h : location = ""
  · rw [if_pos h, if_pos h]
  · rw [if_neg h, if_neg h]
    by_cases h2 : (location.toList.reverse.dropWhile (fun c => c = '/')).reverse = []
    · rw [if_pos h2, if_pos (by rw [h2])]
    · rw [if_neg h2, if_neg (fun hc => h2 (by simpa using congrArg String.data hc))]
      rfl

theorem getByAttributeLoop_ok_single (c : Client) (net : Net) (attr : GroupAttribute)
    (fuel : Nat) : ∀ start g, (getByAttributeLoop c net attr fuel start).1 = some (.ok g) →
      ∃ attrs, g.attributes = some attrs ∧ attrs.lookup attr.key = some [attr.value] := by
  induction fuel with
  | zero => intro start g h; simp [getByAttributeLoop] at h
  | succ fuel ih =>
    intro start g h
    rcases hl : ListPaginated c net none false (start * c.pageSize) c.pageSize with ⟨res, reqs⟩
    simp only [getByAttributeLoop, hl] at h
    cases res with
    | error e => simp at h
    | ok groups =>
      cases hf : findGroupByAttribute groups attr with
      | some g2 =>
        simp only [hf] at h
        have hg : g2 = g := by simpa using h
        subst hg
        exact find_found_single attr groups g2 hf
      | none =>
        simp only [hf] at h
        by_cases hlen : groups.length < c.pageSize
        · rw [if_pos hlen] at h
          simp at h
        · rw [if_neg hlen] at h
          exact ih (start + 1) g h

/-! ## Claims C1 and C5: the attribute scan -/

/-- C1 (amended): in every list scanned by the attribute search, if every
entry before some group `g` is stepped over by the scan (a `nil` entry, a
group with `nil` attributes, one without the searched key, or one whose
single value for the key differs from the searched value) and `g` maps
the searched key to the single-element sequence holding exactly the
searched value, then the scan returns `g`.  An earlier entry that maps
the key to a sequence of length other than one instead stops the scan of
the whole list with "not found" — which is why the original "regardless
of whether other groups earlier in the list map the same key to zero or
to more than one value" fails. -/
theorem claim_C1_scan_first_match (attr : GroupAttribute) (pre : List (Option Group))
    (hpre : ∀ x ∈ pre, skipsEntry attr x) :
    (∀ (g : Group) (rest : List (Option Group)) (attrs : List (String × List String)),
      g.attributes = some attrs → attrs.lookup attr.key = some [attr.value] →
      findGroupByAttribute (pre ++ some g :: rest) attr = some g)
    ∧ (∀ (x : Group) (rest : List (Option Group)) (attrs : List (String × List String))
        (l : List String),
      x.attributes = some attrs → attrs.lookup attr.key = some l → l.length ≠ 1 →
      findGroupByAttribute (pre ++ some x :: rest) attr = none) := by
  constructor
  · intro g rest attrs h1 h2
    rw [find_prefix_skips attr pre _ hpre, find_match_head attr g rest attrs h1 h2]
  · intro x rest attrs l h1 h2 h3
    rw [find_prefix_skips attr pre _ hpre, find_abort_head attr x rest attrs l h1 h2 h3]

/-- Witness for C1: a single-valued non-matching group before the match
is stepped over and the matching group is returned. -/
theorem claim_C1_witness :
    findGroupByAttribute [some gOther, some gSingle] ⟨"k", "v"⟩ = some gSingle := by
  have h := (claim_C1_scan_first_match ⟨"k", "v"⟩ [some gOther] ?_).1
      gSingle [] [("k", ["v"])] rfl rfl
  · exact h
  · intro x hx
    rw [List.mem_singleton] at hx
    subst hx
    exact Or.inr ⟨[("k", ["x"])], rfl, Or.inr ⟨"x", rfl, by decide⟩⟩

/-- Counterexample for C1 as stated: `gSingle` maps `"k"` to the
single-element sequence `["v"]` and sits in the list, yet the scan
returns nothing, because the earlier group `gMulti` maps `"k"` to two
values and that aborts the scan. -/
theorem claim_C1_counterexample :
    findGroupByAttribute [some gMulti, some gSingle] ⟨"k", "v"⟩ = none
    ∧ gSingle.attributes = some [("k", ["v"])] := ⟨rfl, rfl⟩

/-- C5: a group whose attributes map the searched key to a sequence of
length other than one is never the group returned by the scan, by
`GetByAttribute`, or by `GetSubGroupByAttribute`, even if one of the
values equals the searched value. -/
theorem claim_C5_multivalued_never_matches (g : Group) (attr : GroupAttribute)
    (attrs : List (String × List String)) (l : List String)
    (hattrs : g.attributes = some attrs) (hkey : attrs.lookup attr.key = some l)
    (hlen : l.length ≠ 1) :
    (∀ groups : List (Option Group), findGroupByAttribute groups attr ≠ some g)
    ∧ (∀ (c : Client) (net : Net) (fuel : Nat),
        (GetByAttribute c net (some attr) fuel).1 ≠ some (.ok g))
    ∧ (∀ parent : Group, GetSubGroupByAttribute parent attr ≠ .ok g) := by
  have habs : ∀ attrs2, g.attributes = some attrs2 →
      attrs2.lookup attr.key = some [attr.value] → False := by
    intro attrs2 h1 h2
    rw [hattrs] at h1
    obtain rfl : attrs2 = attrs := by simpa using h1.symm
    rw [hkey] at h2
    obtain rfl : l = [attr.value] := by simpa using h2
    simp at hlen
  have hngen : ∀ groups : List (Option Group), findGroupByAttribute groups attr ≠ some g := by
    intro groups heq
    obtain ⟨attrs2, h1, h2⟩ := find_found_single attr groups g heq
    exact habs attrs2 h1 h2
  refine ⟨hngen, ?_, ?_⟩
  · intro c net fuel h
    obtain ⟨attrs2, h1, h2⟩ := getByAttributeLoop_ok_single c net attr fuel 0 g h
    exact habs attrs2 h1 h2
  · intro parent h
    unfold GetSubGroupByAttribute at h
    rcases hsub : parent.subGroups with - | subs
    · rw [hsub] at h
      exact absurd h (by simp)
    · rw [hsub] at h
      dsimp only at h
      rcases hf : findGroupByAttribute subs attr with - | g2
      · rw [hf] at h
        exact absurd h (by simp)
      · rw [hf] at h
        obtain rfl : g2 = g := by simpa using h
        exact hngen subs hf

/-- Witness for C5: the two-valued group `gMulti` is never returned for
the probe `("k", "v")` although `"v"` is among its values. -/
theorem claim_C5_witness :
    findGroupByAttribute [some gMulti] ⟨"k", "v"⟩ ≠ some gMulti :=
  (claim_C5_multivalued_never_matches gMulti ⟨"k", "v"⟩ [("k", ["v", "w"])]
    ["v", "w"] rfl rfl (by decide)).1 [some gMulti]

/-! ## Claims C2 and C10: the paginated search -/

/-- C2 (amended): against a server that serves the `l.length` groups of
`l` in pages of the client's page size, if `K` is the first page whose
scan reports a match `g`, `GetByAttribute` issues exactly `K + 1` page
fetches and returns `g`; and when no page's scan reports a match, it
issues exactly `l.length / pageSize + 1` fetches — one per full page plus
the final short (possibly empty) page — and returns the `ErrGroupNotFound`
sentinel.  (The original claim's `ceil(T/P)` undercounts by one whenever
`P` divides `T`, and its "first matching group" ignores that a
zero-or-multi-valued key aborts a page's scan.) -/
theorem claim_C2_page_fetch_counts (c : Client) (net : Net) (attr : GroupAttribute)
    (l : List (Option Group)) (fuel : Nat) (hP : 0 < c.pageSize)
    (hnet : ∀ i ≤ l.length / c.pageSize, net (pageRequest c i) = pageResponse l c i) :
    (∀ K g, findGroupByAttribute (pageOf l c.pageSize K) attr = some g →
      (∀ j < K, findGroupByAttribute (pageOf l c.pageSize j) attr = none) →
      K + 1 ≤ fuel →
      GetByAttribute c net (some attr) fuel
        = (some (.ok g), (List.range (K + 1)).map (pageRequest c)))
    ∧ ((∀ j ≤ l.length / c.pageSize, findGroupByAttribute (pageOf l c.pageSize j) attr = none) →
      l.length / c.pageSize + 1 ≤ fuel →
      GetByAttribute c net (some attr) fuel
        = (some (.error .groupNotFound),
            (List.range (l.length / c.pageSize + 1)).map (pageRequest c))) := by
  constructor
  · intro K g hmatch hprev hfuel
    show getByAttributeLoop c net attr fuel 0 = _
    rw [getByAttributeLoop_found c net attr l hP hnet K g hmatch hprev fuel 0
      (Nat.zero_le K) (by omega), List.range_eq_range']
    simp
  · intro hnone hfuel
    show getByAttributeLoop c net attr fuel 0 = _
    rw [getByAttributeLoop_notFound c net attr l hP hnet hnone fuel 0
      (Nat.zero_le _) (by omega), List.range_eq_range']
    simp

/-- Witness for C2: one group, page size 1, match on page 0: one fetch,
match returned. -/
theorem claim_C2_witness :
    GetByAttribute cOne netOnePage (some ⟨"k", "v"⟩) 1
      = (some (.ok gSingle), (List.range 1).map (pageRequest cOne)) := by
  have hnet : ∀ i ≤ ([some gSingle] : List (Option Group)).length / cOne.pageSize,
      netOnePage (pageRequest cOne i) = pageResponse [some gSingle] cOne i := by
    intro i hi
    have hi2 : i ≤ 1 := hi
    interval_cases i <;> rfl
  exact (claim_C2_page_fetch_counts cOne netOnePage ⟨"k", "v"⟩ [some gSingle] 1
      (by decide) hnet).1 0 gSingle rfl (fun j hj => absurd hj (Nat.not_lt_zero j))
      (le_refl 1)

/-- Counterexample for C2 as stated: an empty realm (0 groups in total)
still costs one page fetch, while the claimed count `ceil(0 / P)` is 0. -/
theorem claim_C2_counterexample :
    (GetByAttribute cOne netEmpty (some ⟨"k", "v"⟩) 1).2.length = 1
    ∧ (0 + cOne.pageSize - 1) / cOne.pageSize = 0 := ⟨rfl, rfl⟩

/-- C10: every request that `GetByAttribute` puts on the wire is a
`ListPaginated` page request: the trace is exactly the page requests for
pages `0, 1, …`, and page `i`'s request carries no `search` parameter,
`briefRepresentation=false`, offset `first = i * pageSize` and limit
`max = pageSize`; the construction-time default page size is 50. -/
theorem claim_C10_page_request_shape (c : Client) (net : Net) (attr : GroupAttribute)
    (fuel : Nat) :
    (∃ n, (GetByAttribute c net (some attr) fuel).2 = (List.range n).map (pageRequest c))
    ∧ (∀ i, (ListPaginated c net none false (i * c.pageSize) c.pageSize).2 = [pageRequest c i])
    ∧ (∀ i, (pageRequest c i).query.lookup "search" = none
        ∧ (pageRequest c i).query.lookup "briefRepresentation" = some "false"
        ∧ (pageRequest c i).query.lookup "first" = some (toString (i * c.pageSize))
        ∧ (pageRequest c i).query.lookup "max" = some (toString c.pageSize))
    ∧ defaultSize = 50 := by
  refine ⟨?_, listPaginated_snd c net, ?_, rfl⟩
  · obtain ⟨n, hn⟩ := getByAttributeLoop_trace c net attr fuel 0
    exact ⟨n, by rw [List.range_eq_range']; exact hn⟩
  · intro i
    refine ⟨?_, ?_, ?_, ?_⟩ <;>
      simp [pageRequest, mapper, optEntry, List.lookup, boolString]

/-! ## Claim C3: the error-response emptiness test -/

/-- C3 (code behaviour at the failing input): `Empty()` as written uses
disjunctions (`||`) over the three emptiness tests, so a response whose
`Error` field alone is non-empty is reported as empty — `true` — while
the claim (and the repository's own doc comment and unit test
`TestHTTPErrorResponse_Empty`, case "error with only Error field")
demand `false`.  The all-empty response is also `true`, as claimed. -/
theorem claim_C3_empty_disjunction_bug :
    HTTPErrorResponse.Empty ⟨"invalid_request", "", ""⟩ = true
    ∧ HTTPErrorResponse.Empty ⟨"", "", ""⟩ = true
    ∧ HTTPErrorResponse.Empty ⟨"invalid_request", "Invalid request", "The request is invalid"⟩
        = false := by
  refine ⟨by decide, by decide, by decide⟩

/-! ## Claim C4: local validation without network traffic -/

/-- C4 (amended): every operation that requires a `groupID` or an
attribute pointer — `Get`, `Update`, `Delete`, `CreateSubGroup`,
`ListSubGroups`, `ListSubGroupsPaginated`, `ListMembers`,
`GetManagementPermissions`, `UpdateManagementPermissions`,
`GetByAttribute` — rejects the empty string (respectively `nil`) with a
local validation error and an empty request trace.  `GetSubGroupByID`,
which the original claim also listed, performs no such validation on
`subGroupID` (it is in-memory and issues no request in any case). -/
theorem claim_C4_local_validation :
    (∀ (c : Client) (net : Net),
      Get c net "" = (.error (.validation "groupID parameter cannot be empty"), []))
    ∧ (∀ (c : Client) (net : Net) (g : Group), ptrIsZero g.id = true →
      Update c net g = (.error (.validation "the ID of the group is required"), []))
    ∧ (∀ (c : Client) (net : Net),
      Delete c net "" = (.error (.validation "groupID parameter cannot be empty"), []))
    ∧ (∀ (c : Client) (net : Net) (name : String) (attrs : List (String × List String)),
      CreateSubGroup c net "" name attrs
        = (.error (.validation "groupID parameter cannot be empty"), []))
    ∧ (∀ (c : Client) (net : Net),
      ListSubGroups c net "" = (.error (.validation "groupID parameter cannot be empty"), []))
    ∧ (∀ (c : Client) (net : Net) (params : SubGroupSearchParams),
      ListSubGroupsPaginated c net "" params
        = (.error (.validation "groupID parameter cannot be empty"), []))
    ∧ (∀ (c : Client) (net : Net) (params : GroupMembersParams),
      ListMembers c net "" params
        = (.error (.validation "groupID parameter cannot be empty"), []))
    ∧ (∀ (c : Client) (net : Net),
      GetManagementPermissions c net ""
        = (.error (.validation "groupID parameter cannot be empty"), []))
    ∧ (∀ (c : Client) (net : Net) (ref : ManagementPermissionReference),
      UpdateManagementPermissions c net "" ref
        = (.error (.validation "groupID parameter cannot be empty"), []))
    ∧ (∀ (c : Client) (net : Net) (fuel : Nat),
      GetByAttribute c net none fuel
        = (some (.error (.validation "attribute parameter cannot be nil")), [])) := by
  refine ⟨fun c net => rfl, ?_, fun c net => rfl, fun c net name attrs => rfl,
    fun c net => rfl, fun c net params => rfl, fun c net params => rfl,
    fun c net => rfl, fun c net ref => rfl, fun c net fuel => rfl⟩
  intro c net g h
  unfold Update
  rw [h]
  rfl

/-- Witness for C4: the `Update` conjunct at a concrete group whose id is
`nil`. -/
theorem claim_C4_witness :
    Update cOne netEmpty (Group.mk none none none none)
      = (.error (.validation "the ID of the group is required"), []) :=
  claim_C4_local_validation.2.1 cOne netEmpty (Group.mk none none none none) rfl

/-- Counterexample for C4 as stated: `GetSubGroupByID` with an empty
`subGroupID` does not return a validation error — against a parent whose
children contain a group with the empty-string id it even succeeds. -/
theorem claim_C4_counterexample :
    GetSubGroupByID (Group.mk none none none (some [some gEmptyID])) ""
      = .ok gEmptyID := rfl

/-! ## Claim C6: the shared GroupNotFound sentinel -/

/-- C6: a 404 reply to `Get` yields exactly the `groupNotFound` sentinel —
the same single value produced by the in-memory subgroup lookups on an
absent hierarchy and by the attribute search when it exhausts the data
(here: an empty first page). -/
theorem claim_C6_sentinel_identity (c : Client) (net : Net) (groupID : String)
    (hgid : groupID ≠ "")
    (h404 : (net ⟨"GET", buildURL c endpointGroupGet [("groupID", groupID)], []⟩).status
      = 404) :
    (Get c net groupID).1 = .error KeycloakError.groupNotFound
    ∧ (∀ parent : Group, parent.subGroups = none →
        GetSubGroupByID parent groupID = .error KeycloakError.groupNotFound)
    ∧ (∀ (parent : Group) (attr : GroupAttribute), parent.subGroups = none →
        GetSubGroupByAttribute parent attr = .error KeycloakError.groupNotFound)
    ∧ (∀ (attr : GroupAttribute) (net2 : Net) (fuel : Nat), 0 < c.pageSize → 0 < fuel →
        net2 (pageRequest c 0) = pageResponse [] c 0 →
        (GetByAttribute c net2 (some attr) fuel).1
          = some (.error KeycloakError.groupNotFound)) := by
  refine ⟨?_, ?_, ?_, ?_⟩
  · unfold Get
    rw [if_neg hgid]
    dsimp only
    rw [h404]
    rfl
  · intro parent hsub
    unfold GetSubGroupByID
    rw [hsub]
  · intro parent attr hsub
    unfold GetSubGroupByAttribute
    rw [hsub]
  · intro attr net2 fuel hP hf hnet0
    obtain ⟨f, rfl⟩ : ∃ f, fuel = f + 1 := ⟨fuel - 1, by omega⟩
    show (getByAttributeLoop c net2 attr (f + 1) 0).1 = _
    have hpage := listPaginated_page c net2 [] 0 hnet0
    rw [show pageOf ([] : List (Option Group)) c.pageSize 0 = [] by simp [pageOf]] at hpage
    simp only [getByAttributeLoop, hpage, findGroupByAttribute, List.length_nil, if_pos hP]

/-- Witness for C6 at a concrete 404 transport. -/
theorem claim_C6_witness :
    (Get cOne net404 "g1").1 = .error KeycloakError.groupNotFound :=
  (claim_C6_sentinel_identity cOne net404 "g1" (by decide) rfl).1

/-! ## Claim C7: forced parameters of ListWithSubGroups -/

/-- C7: the single request that `ListWithSubGroups` puts on the wire
always carries a `search` parameter (the given query, even when `""`) and
`populateHierarchy=true`. -/
theorem claim_C7_forced_params (c : Client) (net : Net) (searchQuery : String)
    (brief : Bool) (first max : Nat) :
    (ListWithSubGroups c net searchQuery brief first max).2.map
        (fun r => (r.query.lookup "search", r.query.lookup "populateHierarchy"))
      = [(some searchQuery, some "true")] := by
  unfold ListWithSubGroups list
  dsimp only
  split <;> simp [mapper, optEntry, List.lookup, boolString]

/-! ## Claim C8: URL building -/

/-- C8 (amended): `buildURL` substitutes sequentially — first every
`{realm}` occurrence is replaced by the configured realm, then, map entry
by map entry, every `{key}` occurrence of the current string is replaced
by the entry's value — so text inserted by an earlier pass is rescanned
by the later ones (the counterexample below exhibits a realm value that
is substituted again, refuting the original claim's simultaneous
reading).  For every configured realm that does not itself contain `{`,
the result on every endpoint template of the repository is the base URL
concatenated with the template in which `{realm}` is replaced by the
realm and `{groupID}` by the supplied value (arbitrary, for single-key
maps); a map key matching no placeholder changes nothing, a placeholder
with no map entry stays verbatim, and no error is raised. -/
theorem claim_C8_buildURL (c : Client) (gid : String) (hrealm : '{' ∉ c.realm.toList) :
    buildURL c endpointGroupsList [] = c.baseURL ++ "/admin/realms/" ++ c.realm ++ "/groups"
    ∧ buildURL c endpointGroupsCreate []
        = c.baseURL ++ "/admin/realms/" ++ c.realm ++ "/groups"
    ∧ buildURL c endpointGroupsCount []
        = c.baseURL ++ "/admin/realms/" ++ c.realm ++ "/groups/count"
    ∧ buildURL c endpointGroupGet [("groupID", gid)]
        = c.baseURL ++ "/admin/realms/" ++ c.realm ++ "/groups/" ++ gid
    ∧ buildURL c endpointGroupUpdate [("groupID", gid)]
        = c.baseURL ++ "/admin/realms/" ++ c.realm ++ "/groups/" ++ gid
    ∧ buildURL c endpointGroupDelete [("groupID", gid)]
        = c.baseURL ++ "/admin/realms/" ++ c.realm ++ "/groups/" ++ gid
    ∧ buildURL c endpointGroupChildren [("groupID", gid)]
        = c.baseURL ++ "/admin/realms/" ++ c.realm ++ "/groups/" ++ gid ++ "/children"
    ∧ buildURL c endpointGroupChildCreate [("groupID", gid)]
        = c.baseURL ++ "/admin/realms/" ++ c.realm ++ "/groups/" ++ gid ++ "/children"
    ∧ buildURL c endpointGroupMembers [("groupID", gid)]
        = c.baseURL ++ "/admin/realms/" ++ c.realm ++ "/groups/" ++ gid ++ "/members"
    ∧ buildURL c endpointGroupPermsGet [("groupID", gid)]
        = c.baseURL ++ "/admin/realms/" ++ c.realm ++ "/groups/" ++ gid
            ++ "/management/permissions"
    ∧ buildURL c endpointGroupPermsUpdate [("groupID", gid)]
        = c.baseURL ++ "/admin/realms/" ++ c.realm ++ "/groups/" ++ gid
            ++ "/management/permissions"
    ∧ buildURL c endpointGroupChildren []
        = c.baseURL ++ "/admin/realms/" ++ c.realm ++ "/groups/{groupID}/children"
    ∧ (∀ v : String, '{' ∉ gid.toList →
        buildURL c endpointGroupChildren [("groupID", gid), ("missing", v)]
          = c.baseURL ++ "/admin/realms/" ++ c.realm ++ "/groups/" ++ gid
              ++ "/children") := by
  have hget : ∀ ep : Endpoint, ep.path = "/admin/realms/{realm}/groups/{groupID}" →
      buildURL c ep [("groupID", gid)]
        = c.baseURL ++ "/admin/realms/" ++ c.realm ++ "/groups/" ++ gid := by
    intro ep hp
    have h := buildURL_groupID c ep "/groups/" "" gid hrealm (by rw [hp]; rfl)
      (by decide) (by decide) (by decide)
    calc buildURL c ep [("groupID", gid)]
        = c.baseURL ++ "/admin/realms/" ++ c.realm ++ "/groups/" ++ gid ++ "" := h
      _ = c.baseURL ++ "/admin/realms/" ++ c.realm ++ "/groups/" ++ gid := by
          rw [String.append_empty]
  refine ⟨buildURL_noparams c _ "/groups" rfl (by decide),
    buildURL_noparams c _ "/groups" rfl (by decide),
    buildURL_noparams c _ "/groups/count" rfl (by decide),
    hget endpointGroupGet rfl, hget endpointGroupUpdate rfl, hget endpointGroupDelete rfl,
    buildURL_groupID c _ "/groups/" "/children" gid hrealm rfl
      (by decide) (by decide) (by decide),
    buildURL_groupID c _ "/groups/" "/children" gid hrealm rfl
      (by decide) (by decide) (by decide),
    buildURL_groupID c _ "/groups/" "/members" gid hrealm rfl
      (by decide) (by decide) (by decide),
    buildURL_groupID c _ "/groups/" "/management/permissions" gid hrealm rfl
      (by decide) (by decide) (by decide),
    buildURL_groupID c _ "/groups/" "/management/permissions" gid hrealm rfl
      (by decide) (by decide) (by decide),
    buildURL_noparams c _ "/groups/{groupID}/children" rfl (by decide), ?_⟩
  intro v hgid
  unfold buildURL
  simp only [List.foldl_cons, List.foldl_nil]
  rw [show endpointGroupChildren.path
      = "/admin/realms/" ++ "{realm}" ++ "/groups/{groupID}/children" from rfl,
    replaceAll_template "/admin/realms/" "{realm}" "/groups/{groupID}/children" c.realm '{'
      (by decide) (by decide) (by decide)]
  rw [show ("\x7b" ++ ("groupID", gid).1 ++ "\x7d" : String) = "{groupID}" from rfl]
  have hsplit : "/admin/realms/" ++ (c.realm ++ "/groups/{groupID}/children")
      = ("/admin/realms/" ++ c.realm ++ "/groups/") ++ "{groupID}" ++ "/children" := by
    simp [String.append_assoc]
  rw [hsplit, replaceAll_template ("/admin/realms/" ++ c.realm ++ "/groups/") "{groupID}"
      "/children" gid '{' (by decide) ?_ (by decide)]
  · rw [show ("\x7b" ++ ("missing", v).1 ++ "\x7d" : String) = "{missing}" from rfl,
      replaceAll_no_first_char _ "{missing}" v '{' (by decide) ?_]
    · simp [String.append_assoc]
    · intro hmem
      have hdata : (("/admin/realms/" ++ c.realm ++ "/groups/") ++ (gid ++ "/children")).toList
          = ("/admin/realms/".toList ++ c.realm.toList ++ "/groups/".toList)
              ++ (gid.toList ++ "/children".toList) := rfl
      rw [hdata] at hmem
      simp only [List.mem_append] at hmem
      rcases hmem with ((hm | hm) | hm) | (hm | hm)
      · exact absurd hm (by decide)
      · exact hrealm hm
      · exact absurd hm (by decide)
      · exact hgid hm
      · exact absurd hm (by decide)
  · intro hmem
    have hdata : ("/admin/realms/" ++ c.realm ++ "/groups/").toList
        = "/admin/realms/".toList ++ c.realm.toList ++ "/groups/".toList := rfl
    rw [hdata] at hmem
    simp only [List.mem_append] at hmem
    rcases hmem with (hm | hm) | hm
    · exact absurd hm (by decide)
    · exact hrealm hm
    · exact absurd hm (by decide)

/-- Witness for C8: the children endpoint with realm `r1` and group id
`g1` resolves to the expected URL. -/
theorem claim_C8_witness :
    buildURL ⟨"http://kc", "r1", 50⟩ endpointGroupChildren [("groupID", "g1")]
      = "http://kc/admin/realms/r1/groups/g1/children" := by
  obtain ⟨-, -, -, -, -, -, h7, -⟩ :=
    claim_C8_buildURL ⟨"http://kc", "r1", 50⟩ "g1" (by decide)
  rw [h7]
  rfl

/-- Counterexample for C8 as stated: with configured realm `"{groupID}"`
the realm text substituted by the first pass is rescanned and replaced by
the `groupID` pass, so the result is `…/admin/realms/g1/groups/g1/children`
and not, as the claim requires, the template with every `{realm}`
occurrence replaced by the configured realm (kept verbatim) and every
`{groupID}` occurrence replaced by `g1`. -/
theorem claim_C8_counterexample :
    buildURL ⟨"http://kc", "{groupID}", 50⟩ endpointGroupChildren [("groupID", "g1")]
      = "http://kc/admin/realms/g1/groups/g1/children"
    ∧ buildURL ⟨"http://kc", "{groupID}", 50⟩ endpointGroupChildren [("groupID", "g1")]
      ≠ "http://kc" ++ "/admin/realms/" ++ "{groupID}" ++ "/groups/" ++ "g1"
          ++ "/children" := by
  have h : buildURL ⟨"http://kc", "{groupID}", 50⟩ endpointGroupChildren [("groupID", "g1")]
      = "http://kc/admin/realms/g1/groups/g1/children" := by
    simp [buildURL, replaceAll, endpointGroupChildren, replaceAllChars_cons,
      replaceAllChars_nil, List.isPrefixOf]
  refine ⟨h, ?_⟩
  rw [h]
  decide

/-! ## Claim C9: id extraction from the Location header -/

/-- C9 (amended): for every successful `Create` or `CreateSubGroup`
response, the returned id is the last `/`-delimited segment of the
`Location` header value after trailing slashes are stripped (`"/"` when
the value is nothing but slashes), and `""` when the header is missing or
empty — i.e. Go's `path.Base`, which differs from the plain "last
`/`-delimited segment" exactly on values with trailing slashes. -/
theorem claim_C9_location_id (c : Client) (net : Net) (name groupID : String)
    (attrs : List (String × List String)) (hgid : groupID ≠ "")
    (h1 : isSuccess (net ⟨"POST", buildURL c endpointGroupsCreate [], []⟩).status = true)
    (h2 : isSuccess
      (net ⟨"POST", buildURL c endpointGroupChildCreate [("groupID", groupID)], []⟩).status
        = true) :
    (Create c net name attrs).1
        = .ok (specLocationID (net ⟨"POST", buildURL c endpointGroupsCreate [], []⟩).location)
    ∧ (CreateSubGroup c net groupID name attrs).1
        = .ok (specLocationID
            (net ⟨"POST", buildURL c endpointGroupChildCreate [("groupID", groupID)], []⟩).location) := by
  constructor
  · unfold Create
    dsimp only
    rw [if_pos h1, getID_eq_specLocationID]
  · unfold CreateSubGroup
    rw [if_neg hgid]
    dsimp only
    rw [if_pos h2, getID_eq_specLocationID]

/-- Witness for C9 at a concrete 201 transport with a clean Location
header. -/
theorem claim_C9_witness :
    (Create ⟨"http://kc", "r1", 50⟩ netCreated "Eng" []).1
      = .ok (specLocationID "http://kc/admin/realms/r1/groups/abc123") :=
  (claim_C9_location_id ⟨"http://kc", "r1", 50⟩ netCreated "Eng" "p1" [] (by decide)
    rfl rfl).1

/-- Counterexample for C9 as stated: a Location value with a trailing
slash makes `Create` return `"abc123"`, while the last `/`-delimited
segment of that value is the empty string. -/
theorem claim_C9_counterexample :
    (Create ⟨"http://kc", "r1", 50⟩ netCreatedSlash "Eng" []).1 = .ok "abc123"
    ∧ specLastSegment "http://kc/admin/realms/r1/groups/abc123/" = "" := by
  exact ⟨rfl, by decide⟩

end Keycloak
